import Mathlib

/-!
# Verification of the HMD optical solver, eye rig, frustum reconstruction and
# PIP viewport compositor

Shallow embedding of the numeric core of the `hmd` repository
(`src/hmd.ts`, `src/app.ts`, `src/frustumVisualizer.ts` and their earlier
evolutions).  All JavaScript numbers are modelled as `ℚ` with Lean's total
division (`x / 0 = 0`); every place where the source can actually divide by
zero (JS `Infinity`/`NaN`) is reached only in degenerate configurations and is
noted at the definition concerned.  Trigonometric display-only fields
(`fovVertical` etc.) are irrational and feed nothing else, so they are left
out of the embedding; no claim mentions them.
-/

/-- A 3-component vector, modelling Babylon.js `Vector3` with rational
coordinates. -/
structure Vec3 where
  x : ℚ
  y : ℚ
  z : ℚ
deriving DecidableEq, Repr

/-- Component-wise vector addition (Babylon `Vector3.add`). -/
def vadd (a b : Vec3) : Vec3 := ⟨a.x + b.x, a.y + b.y, a.z + b.z⟩

/-- Component-wise negation (Babylon `Vector3.negate`). -/
def vneg (a : Vec3) : Vec3 := ⟨-a.x, -a.y, -a.z⟩

/-- Scalar multiplication (Babylon `Vector3.scale`). -/
def vscale (a : Vec3) (s : ℚ) : Vec3 := ⟨a.x * s, a.y * s, a.z * s⟩

/-- A 4×4 matrix stored row-major, fields named after the argument order of
Babylon.js `Matrix.FromValues(m11, m12, ..., m44)`; Babylon multiplies row
vectors on the left (`v ↦ v · M`). -/
structure Mat4 where
  m11 : ℚ
  m12 : ℚ
  m13 : ℚ
  m14 : ℚ
  m21 : ℚ
  m22 : ℚ
  m23 : ℚ
  m24 : ℚ
  m31 : ℚ
  m32 : ℚ
  m33 : ℚ
  m34 : ℚ
  m41 : ℚ
  m42 : ℚ
  m43 : ℚ
  m44 : ℚ
deriving DecidableEq, Repr

/-- Babylon `Matrix.FromValues`. -/
def fromValues (a11 a12 a13 a14 a21 a22 a23 a24 a31 a32 a33 a34 a41 a42 a43 a44 : ℚ) : Mat4 :=
  ⟨a11, a12, a13, a14, a21, a22, a23, a24, a31, a32, a33, a34, a41, a42, a43, a44⟩

/-- Babylon `Matrix.Identity()`. -/
def identityMat4 : Mat4 :=
  fromValues 1 0 0 0 0 1 0 0 0 0 1 0 0 0 0 1

/-- Babylon `Vector3.TransformCoordinates(v, m)`: the affine point
`(x, y, z, 1)` is multiplied as a row vector by `m` and divided by the
resulting homogeneous `w`.  The source computes `rw = 1 / w` and multiplies;
with rational total division a zero `w` yields the zero vector where JS would
yield `Infinity`/`NaN` components (no claim below evaluates at `w = 0`). -/
def transformCoordinates (v : Vec3) (m : Mat4) : Vec3 :=
  let rx := v.x * m.m11 + v.y * m.m21 + v.z * m.m31 + m.m41
  let ry := v.x * m.m12 + v.y * m.m22 + v.z * m.m32 + m.m42
  let rz := v.x * m.m13 + v.y * m.m23 + v.z * m.m33 + m.m43
  let rw := 1 / (v.x * m.m14 + v.y * m.m24 + v.z * m.m34 + m.m44)
  ⟨rx * rw, ry * rw, rz * rw⟩

/-- Babylon `Vector3.TransformNormal(v, m)`: like `TransformCoordinates` but
without the translation row and without the homogeneous divide. -/
def transformNormal (v : Vec3) (m : Mat4) : Vec3 :=
  ⟨v.x * m.m11 + v.y * m.m21 + v.z * m.m31,
   v.x * m.m12 + v.y * m.m22 + v.z * m.m32,
   v.x * m.m13 + v.y * m.m23 + v.z * m.m33⟩

/-- 3×3 determinant helper for the cofactor expansions below. -/
def det3 (a b c d e f g h i : ℚ) : ℚ :=
  a * (e * i - f * h) - b * (d * i - f * g) + c * (d * h - e * g)

/-- Determinant of a 4×4 matrix by cofactor expansion along the first row
(the value Babylon's `Matrix.determinant()` computes). -/
def determinant4 (m : Mat4) : ℚ :=
  m.m11 * det3 m.m22 m.m23 m.m24 m.m32 m.m33 m.m34 m.m42 m.m43 m.m44
    - m.m12 * det3 m.m21 m.m23 m.m24 m.m31 m.m33 m.m34 m.m41 m.m43 m.m44
    + m.m13 * det3 m.m21 m.m22 m.m24 m.m31 m.m32 m.m34 m.m41 m.m42 m.m44
    - m.m14 * det3 m.m21 m.m22 m.m23 m.m31 m.m32 m.m33 m.m41 m.m42 m.m43

/-- Models `@babylonjs/core` `Matrix.Invert` / `invertToRef` (an external
library collaborator of `frustumVisualizer.ts`): the adjugate divided by the
determinant; when the determinant is zero Babylon copies the source matrix
into the result unchanged (`if (det === 0) { other.copyFrom(this); }`), so a
singular matrix is returned as its own "inverse" without any error. -/
def babylonInvert (m : Mat4) : Mat4 :=
  let det := determinant4 m
  if det = 0 then m
  else
    let c11 := det3 m.m22 m.m23 m.m24 m.m32 m.m33 m.m34 m.m42 m.m43 m.m44
    let c12 := -(det3 m.m21 m.m23 m.m24 m.m31 m.m33 m.m34 m.m41 m.m43 m.m44)
    let c13 := det3 m.m21 m.m22 m.m24 m.m31 m.m32 m.m34 m.m41 m.m42 m.m44
    let c14 := -(det3 m.m21 m.m22 m.m23 m.m31 m.m32 m.m33 m.m41 m.m42 m.m43)
    let c21 := -(det3 m.m12 m.m13 m.m14 m.m32 m.m33 m.m34 m.m42 m.m43 m.m44)
    let c22 := det3 m.m11 m.m13 m.m14 m.m31 m.m33 m.m34 m.m41 m.m43 m.m44
    let c23 := -(det3 m.m11 m.m12 m.m14 m.m31 m.m32 m.m34 m.m41 m.m42 m.m44)
    let c24 := det3 m.m11 m.m12 m.m13 m.m31 m.m32 m.m33 m.m41 m.m42 m.m43
    let c31 := det3 m.m12 m.m13 m.m14 m.m22 m.m23 m.m24 m.m42 m.m43 m.m44
    let c32 := -(det3 m.m11 m.m13 m.m14 m.m21 m.m23 m.m24 m.m41 m.m43 m.m44)
    let c33 := det3 m.m11 m.m12 m.m14 m.m21 m.m22 m.m24 m.m41 m.m42 m.m44
    let c34 := -(det3 m.m11 m.m12 m.m13 m.m21 m.m22 m.m23 m.m41 m.m42 m.m43)
    let c41 := -(det3 m.m12 m.m13 m.m14 m.m22 m.m23 m.m24 m.m32 m.m33 m.m34)
    let c42 := det3 m.m11 m.m13 m.m14 m.m21 m.m23 m.m24 m.m31 m.m33 m.m34
    let c43 := -(det3 m.m11 m.m12 m.m14 m.m21 m.m22 m.m24 m.m31 m.m32 m.m34)
    let c44 := det3 m.m11 m.m12 m.m13 m.m21 m.m22 m.m23 m.m31 m.m32 m.m33
    ⟨c11 / det, c21 / det, c31 / det, c41 / det,
     c12 / det, c22 / det, c32 / det, c42 / det,
     c13 / det, c23 / det, c33 / det, c43 / det,
     c14 / det, c24 / det, c34 / det, c44 / det⟩

/-- 4×4 matrix product (row-vector convention), used only to validate the
inverse against the identity. -/
def matMul (a b : Mat4) : Mat4 :=
  ⟨a.m11 * b.m11 + a.m12 * b.m21 + a.m13 * b.m31 + a.m14 * b.m41,
   a.m11 * b.m12 + a.m12 * b.m22 + a.m13 * b.m32 + a.m14 * b.m42,
   a.m11 * b.m13 + a.m12 * b.m23 + a.m13 * b.m33 + a.m14 * b.m43,
   a.m11 * b.m14 + a.m12 * b.m24 + a.m13 * b.m34 + a.m14 * b.m44,
   a.m21 * b.m11 + a.m22 * b.m21 + a.m23 * b.m31 + a.m24 * b.m41,
   a.m21 * b.m12 + a.m22 * b.m22 + a.m23 * b.m32 + a.m24 * b.m42,
   a.m21 * b.m13 + a.m22 * b.m23 + a.m23 * b.m33 + a.m24 * b.m43,
   a.m21 * b.m14 + a.m22 * b.m24 + a.m23 * b.m34 + a.m24 * b.m44,
   a.m31 * b.m11 + a.m32 * b.m21 + a.m33 * b.m31 + a.m34 * b.m41,
   a.m31 * b.m12 + a.m32 * b.m22 + a.m33 * b.m32 + a.m34 * b.m42,
   a.m31 * b.m13 + a.m32 * b.m23 + a.m33 * b.m33 + a.m34 * b.m43,
   a.m31 * b.m14 + a.m32 * b.m24 + a.m33 * b.m34 + a.m34 * b.m44,
   a.m41 * b.m11 + a.m42 * b.m21 + a.m43 * b.m31 + a.m44 * b.m41,
   a.m41 * b.m12 + a.m42 * b.m22 + a.m43 * b.m32 + a.m44 * b.m42,
   a.m41 * b.m13 + a.m42 * b.m23 + a.m43 * b.m33 + a.m44 * b.m43,
   a.m41 * b.m14 + a.m42 * b.m24 + a.m43 * b.m34 + a.m44 * b.m44⟩

/-- The optical parameters of the headset, the slider-mutable subset of the
fields of `HMD` (`src/hmd.ts` lines 57–76; these are the keys of
`displayParams`/`sliderParams` plus `farFromNear`, the inputs read by
`calcProjectionMatrix`). -/
structure OpticalConfig where
  f : ℚ
  ipd : ℚ
  eyeRelief : ℚ
  distLens2Display : ℚ
  displayWidth : ℚ
  displayHeight : ℚ
  farFromNear : ℚ
deriving DecidableEq, Repr

/-- The derived scalar optics written by `HMD.calcProjectionMatrix`
(`src/hmd.ts` lines 651–734).  The four `fov*` fields (atan-based, converted
to degrees, display-only) are irrational and are not modelled; nothing else
reads them. -/
structure DerivedOptics where
  distEye2Display : ℚ
  magnification : ℚ
  imgHeight : ℚ
  aspectRatio : ℚ
  distLens2Img : ℚ
  distEye2Img : ℚ
  near : ℚ
  far : ℚ
  top : ℚ
  bottom : ℚ
  imgWidthNasal : ℚ
  imgWidthTemporal : ℚ
  rightForLeftEye : ℚ
  leftForLeftEye : ℚ
  rightForRightEye : ℚ
  leftForRightEye : ℚ
deriving DecidableEq, Repr

/-- The scalar part of `HMD.calcProjectionMatrix` (`src/hmd.ts` lines
651–734), assignment by assignment.  At `f = distLens2Display` the source
divides by zero (`magnification` becomes JS `Infinity`); under rational total
division those quotients are `0` instead — the degenerate point is exercised
only to show the source performs no rejection there. -/
def calcDerived (c : OpticalConfig) : DerivedOptics :=
  let distEye2Display := c.eyeRelief + c.distLens2Display
  let magnification := c.f / (c.f - c.distLens2Display)
  let imgHeight := c.displayHeight * magnification
  let aspectRatio := c.displayWidth / c.displayHeight
  let distLens2Img := |1 / (1 / c.f - 1 / c.distLens2Display)|
  let distEye2Img := distLens2Img + c.eyeRelief
  let near := distEye2Display
  let far := near + c.farFromNear
  let top := near * imgHeight / (2 * distEye2Img)
  let bottom := -top
  let imgWidthNasal := magnification * c.ipd / 2
  let imgWidthTemporal := magnification * (c.displayWidth - c.ipd) / 2
  let rightForLeftEye := distEye2Display * imgWidthNasal / distEye2Img
  let leftForLeftEye := -distEye2Display * imgWidthTemporal / distEye2Img
  let rightForRightEye := distEye2Display * imgWidthTemporal / distEye2Img
  let leftForRightEye := -distEye2Display * imgWidthNasal / distEye2Img
  { distEye2Display := distEye2Display
    magnification := magnification
    imgHeight := imgHeight
    aspectRatio := aspectRatio
    distLens2Img := distLens2Img
    distEye2Img := distEye2Img
    near := near
    far := far
    top := top
    bottom := bottom
    imgWidthNasal := imgWidthNasal
    imgWidthTemporal := imgWidthTemporal
    rightForLeftEye := rightForLeftEye
    leftForLeftEye := leftForLeftEye
    rightForRightEye := rightForRightEye
    leftForRightEye := leftForRightEye }

/-- The off-axis projection matrix built at the end of
`HMD.calcProjectionMatrix` (`src/hmd.ts` lines 762–816) from frustum bounds
`(l, r, t, b, n, far)`: `x = 2n/(r-l)`, `y = 2n/(t-b)`, `a = (r+l)/(r-l)`,
`b = (t+b)/(t-b)`, `c = (far+n)/(far-n)`, `d = -2·far·n/(far-n)`, assembled
with `Matrix.FromValues(x,0,0,0, 0,y,0,0, a,b,c,1, 0,0,d,0)`. -/
def projMatOfBounds (l r t b n far : ℚ) : Mat4 :=
  let x := 2 * n / (r - l)
  let y := 2 * n / (t - b)
  let a := (r + l) / (r - l)
  let bb := (t + b) / (t - b)
  let cc := (far + n) / (far - n)
  let d := (-2 * far * n) / (far - n)
  fromValues x 0 0 0 0 y 0 0 a bb cc 1 0 0 d 0

/-- `this.projMatL` as computed by `HMD.calcProjectionMatrix` for a given
configuration (left-eye bounds `leftForLeftEye`/`rightForLeftEye`). -/
def calcProjectionMatrixL (c : OpticalConfig) : Mat4 :=
  let dv := calcDerived c
  projMatOfBounds dv.leftForLeftEye dv.rightForLeftEye dv.top dv.bottom dv.near dv.far

/-- `this.projMatR` as computed by `HMD.calcProjectionMatrix` for a given
configuration (right-eye bounds `leftForRightEye`/`rightForRightEye`; the
`y`, `b`, `c`, `d` entries are shared with the left eye). -/
def calcProjectionMatrixR (c : OpticalConfig) : Mat4 :=
  let dv := calcDerived c
  projMatOfBounds dv.leftForRightEye dv.rightForRightEye dv.top dv.bottom dv.near dv.far

/-- `HMD.aspectRatioEye` getter (`src/hmd.ts` lines 137–141). -/
def aspectRatioEye (dv : DerivedOptics) : ℚ :=
  (dv.rightForLeftEye - dv.leftForLeftEye) / (dv.top - dv.bottom)

/-- The default optical parameters of `HMD` (`src/hmd.ts` lines 57–76):
the "cardboard from shopee" configuration. -/
def defaultConfig : OpticalConfig :=
  { f := 0.043
    ipd := 0.065
    eyeRelief := 0.018
    distLens2Display := 0.042
    displayWidth := 0.12096
    displayHeight := 0.068
    farFromNear := 1.5 }

/-- `HMD.updateEyePos` (`src/hmd.ts` lines 304–319): local `right` and
`forward` axes are obtained from the control camera's orientation via
`getDirection` (= `TransformNormal` by the camera's world matrix, here the
parameter `world`); the eyes sit at
`pos ± right·(ipd/2) + forward·(-distEye2Display)`.  Returns
`(eyePosL, eyePosR)`. -/
def updateEyePosPair (pos : Vec3) (world : Mat4) (ipd distEye2Display : ℚ) : Vec3 × Vec3 :=
  let right := transformNormal ⟨1, 0, 0⟩ world
  let forward := transformNormal ⟨0, 0, 1⟩ world
  let offsetRight := vscale right (ipd / 2)
  let offsetForward := vscale forward (-distEye2Display)
  (vadd (vadd pos (vneg offsetRight)) offsetForward,
   vadd (vadd pos offsetRight) offsetForward)

/-- Squared Euclidean length of `eyePosR - eyePosL` after `updateEyePos`
(the squared separation between the two eyes). -/
def eyeSepSq (pos : Vec3) (world : Mat4) (ipd distEye2Display : ℚ) : ℚ :=
  let pq := updateEyePosPair pos world ipd distEye2Display
  (pq.2.x - pq.1.x) ^ 2 + (pq.2.y - pq.1.y) ^ 2 + (pq.2.z - pq.1.z) ^ 2

/-- `Matrix.LookAtLH(eyePos, lookAtPoint, up)` as used by `HMD.getViewMatrix`
for the identity orientation, where `lookAtPoint = eyePos + (0,0,1)` and
`up = (0,1,0)` (this is literally the older `hmd.ts` `getViewMatrix`, and the
current one whenever the eye camera's orientation is the identity).  Babylon
computes `zAxis = normalize(target - eye) = (0,0,1)`,
`xAxis = normalize(cross(up, zAxis)) = (1,0,0)`, `yAxis = cross(zAxis, xAxis)
= (0,1,0)` — all normalizations act on unit vectors, so no square roots
arise — and assembles the rotation rows with translation
`(-dot(xAxis,eye), -dot(yAxis,eye), -dot(zAxis,eye))`: the result is the
pure translation by `-eyePos`. -/
def viewMatrixIdentityOrient (eyePos : Vec3) : Mat4 :=
  fromValues 1 0 0 0 0 1 0 0 0 0 1 0 (-eyePos.x) (-eyePos.y) (-eyePos.z) 1

/-- The eight clip-space cube corners of
`FrustumVisualizer.calculateFrustumCorners` (`src/frustumVisualizer.ts`
lines 221–239), in source order: indices 0–3 are the near face (`z = -1`),
4–7 the far face (`z = 1`). -/
def clipCorners : List Vec3 :=
  [⟨-1, 1, -1⟩, ⟨1, 1, -1⟩, ⟨-1, -1, -1⟩, ⟨1, -1, -1⟩,
   ⟨-1, 1, 1⟩, ⟨1, 1, 1⟩, ⟨-1, -1, 1⟩, ⟨1, -1, 1⟩]

/-- `FrustumVisualizer.calculateFrustumCorners(projMat, viewMat)`: inverts
both matrices with `Matrix.Invert` and maps every clip corner through
`TransformCoordinates` twice (clip → view → world).  The function is total:
no singularity check, no error path. -/
def calculateFrustumCorners (projMat viewMat : Mat4) : List Vec3 :=
  let invProj := babylonInvert projMat
  let invView := babylonInvert viewMat
  clipCorners.map fun c => transformCoordinates (transformCoordinates c invProj) invView

/-- The `i`-th world-space frustum corner (defaulting to the origin out of
range), for stating properties of individual corners. -/
def frustumCorner (projMat viewMat : Mat4) (i : ℕ) : Vec3 :=
  (calculateFrustumCorners projMat viewMat).getD i ⟨0, 0, 0⟩

/-- Measure the near-plane rectangle of the reconstructed frustum relative to
the eye position: `(left, right, top, bottom)` taken from the world-space
near corners 0 `(-1,1,-1)`, 1 `(1,1,-1)` and 2 `(-1,-1,-1)` of
`calculateFrustumCorners`, with the eye position subtracted. -/
def nearRectRelEye (projMat viewMat : Mat4) (eyePos : Vec3) : ℚ × ℚ × ℚ × ℚ :=
  ((frustumCorner projMat viewMat 0).x - eyePos.x,
   (frustumCorner projMat viewMat 1).x - eyePos.x,
   (frustumCorner projMat viewMat 0).y - eyePos.y,
   (frustumCorner projMat viewMat 2).y - eyePos.y)

/-- `DisplayMode` (`src/constants.ts`). -/
inductive DisplayMode
  | Simulation
  | VR
deriving DecidableEq, Repr

/-- A Babylon `Viewport(x, y, width, height)` in canvas fractions. -/
structure Viewport where
  x : ℚ
  y : ℚ
  width : ℚ
  height : ℚ
deriving DecidableEq, Repr

/-- `App.updateHMDEyeCameraViewports` of the current `app.ts`, computing the
left-eye viewport.  In `Simulation` mode: width fraction
`0.20 · displayWidth / 0.121`, height in pixels `widthPixels ·
aspectRatioEye`, then the width is clamped to `0.45` (height re-derived) and
the height to `0.9` (width re-derived); the pair is anchored to the top-right
corner.  In `VR` mode each eye fills half the screen.  The right-eye viewport
is identical except `x + width` (not modelled separately). -/
def updateHMDEyeCameraViewports (mode : DisplayMode) (canvasWidth canvasHeight dispWidth aspectEye : ℚ) :
    Viewport :=
  match mode with
  | DisplayMode.VR => ⟨0, 0, 1 / 2, 1⟩
  | DisplayMode.Simulation =>
    let baseDisplayWidth : ℚ := 0.121
    let widthScale := dispWidth / baseDisplayWidth
    let baseWidthFraction : ℚ := 0.20
    let w0 := baseWidthFraction * widthScale
    let h0 := w0 * canvasWidth * aspectEye / canvasHeight
    let maxWidthFraction : ℚ := 0.45
    let maxHeightFraction : ℚ := 0.9
    let w1 := if w0 > maxWidthFraction then maxWidthFraction else w0
    let h1 := if w0 > maxWidthFraction then w1 * canvasWidth * aspectEye / canvasHeight else h0
    let h2 := if h1 > maxHeightFraction then maxHeightFraction else h1
    let w2 := if h1 > maxHeightFraction then h2 * canvasHeight / aspectEye / canvasWidth else w1
    ⟨1 - w2 * 2, 1 - h2, w2, h2⟩

/-- `App.updateHMDEyeCameraViewports` of the earlier `app.ts` evolution
(`src/app.ts` lines 416–443): in `Simulation` mode the width fraction is the
constant `PIP_VIEWPORT_WIDTH = 0.25` and the height in pixels is
`widthPixels / aspectRatioEye`. -/
def updateHMDEyeCameraViewportsOld (mode : DisplayMode) (canvasWidth canvasHeight aspectEye : ℚ) :
    Viewport :=
  match mode with
  | DisplayMode.VR => ⟨0, 0, 1 / 2, 1⟩
  | DisplayMode.Simulation =>
    let w : ℚ := 0.25
    let widthPixels := w * canvasWidth
    let heightPixels := widthPixels / aspectEye
    let h := heightPixels / canvasHeight
    ⟨1 - w * 2, 1 - h, w, h⟩

/-- The keys accepted by `HMD.setParam` from the UI sliders
(`HMD.sliderParams`, `src/hmd.ts` lines 217–226). -/
inductive ParamKey
  | f
  | ipd
  | eyeRelief
  | distLens2Display
  | displayWidth
  | displayHeight
deriving DecidableEq, Repr

/-- `this[key] = value` for a slider key. -/
def assignParam (c : OpticalConfig) (k : ParamKey) (v : ℚ) : OpticalConfig :=
  match k with
  | ParamKey.f => { c with f := v }
  | ParamKey.ipd => { c with ipd := v }
  | ParamKey.eyeRelief => { c with eyeRelief := v }
  | ParamKey.distLens2Display => { c with distLens2Display := v }
  | ParamKey.displayWidth => { c with displayWidth := v }
  | ParamKey.displayHeight => { c with displayHeight := v }

/-- The numeric state of an `HMD` instance: optical parameters, pose, the
control camera's orientation (world matrix used by `getDirection`), the
cached derived optics, projection matrices and eye positions.  Meshes,
cameras, render targets and observers carry no numeric state of their own
beyond copies of these fields and are not modelled. -/
structure HMDState where
  params : OpticalConfig
  pos : Vec3
  rot : Vec3
  world : Mat4
  derived : DerivedOptics
  projMatL : Mat4
  projMatR : Mat4
  eyePosL : Vec3
  eyePosR : Vec3
deriving DecidableEq, Repr

/-- Build a calibrated `HMDState` the way the `HMD` constructor does: run
`calcProjectionMatrix` and `updateEyePos` on the given parameters. -/
def mkHMDState (c : OpticalConfig) (pos rot : Vec3) (world : Mat4) : HMDState :=
  let dv := calcDerived c
  let eyes := updateEyePosPair pos world c.ipd dv.distEye2Display
  { params := c
    pos := pos
    rot := rot
    world := world
    derived := dv
    projMatL := calcProjectionMatrixL c
    projMatR := calcProjectionMatrixR c
    eyePosL := eyes.1
    eyePosR := eyes.2 }

/-- The state of the `HMD` as constructed with its default parameters
(`pos = (0, 0.1, -0.5)`, identity orientation). -/
def defaultState : HMDState :=
  mkHMDState defaultConfig ⟨0, 0.1, -0.5⟩ ⟨0, 0, 0⟩ identityMat4

/-- `HMD.setParam(key, value)` (`src/hmd.ts` lines 264–294): assigns the
field unconditionally, then recalculates the projection matrices and all
derived values (`calcProjectionMatrix`) and the eye positions
(`updateEyePos`).  There is no validation and no exception path anywhere in
the source: the function always returns the mutated state. -/
def setParam (s : HMDState) (k : ParamKey) (v : ℚ) : HMDState :=
  let p := assignParam s.params k v
  let dv := calcDerived p
  let eyes := updateEyePosPair s.pos s.world p.ipd dv.distEye2Display
  { s with
    params := p
    derived := dv
    projMatL := calcProjectionMatrixL p
    projMatR := calcProjectionMatrixR p
    eyePosL := eyes.1
    eyePosR := eyes.2 }

/-- `HMD.updatePosition(newPos)` (`src/hmd.ts` lines 824–836): copies the new
position, moves the display mesh, recomputes the eye positions and copies
them into the eye cameras.  Derived optics and projection matrices are not
touched. -/
def updatePosition (s : HMDState) (newPos : Vec3) : HMDState :=
  let eyes := updateEyePosPair newPos s.world s.params.ipd s.derived.distEye2Display
  { s with pos := newPos, eyePosL := eyes.1, eyePosR := eyes.2 }

/-- `HMD.updateOrientation(newRot)` (`src/hmd.ts` lines 841–851): copies the
new rotation into the display and eye-camera meshes and re-copies the
(unchanged) eye positions into the cameras.  Neither the derived optics nor
the projection matrices nor the stored eye positions are recomputed. -/
def updateOrientation (s : HMDState) (newRot : Vec3) : HMDState :=
  { s with rot := newRot }

/-- Positivity of `distEye2Img` for positive `eyeRelief` (an absolute value
plus a positive number). -/
lemma distEye2Img_pos (c : OpticalConfig) (her : 0 < c.eyeRelief) :
    0 < (calcDerived c).distEye2Img := by
  simp only [calcDerived]
  positivity

/-- The generic cancellation behind the eye aspect ratio, with
`m = magnification`, `E = distEye2Display`, `D = distEye2Img`. -/
lemma aspect_cancel (m E D ipd dW dH : ℚ) (hm : m ≠ 0) (hE : E ≠ 0) (hD : D ≠ 0)
    (hdh : dH ≠ 0) :
    (E * (m * ipd / 2) / D - -E * (m * (dW - ipd) / 2) / D) /
      (E * (dH * m) / (2 * D) - -(E * (dH * m) / (2 * D))) = dW / (2 * dH) := by
  field_simp
  ring

/-- Closed form of the eye aspect ratio: the magnification and the two
distance factors cancel between the horizontal and vertical frustum extents,
leaving `displayWidth / (2 · displayHeight)`. -/
lemma aspectRatioEye_closed_form (c : OpticalConfig)
    (hf : 0 < c.f) (her : 0 < c.eyeRelief) (hdl : 0 < c.distLens2Display)
    (hdh : 0 < c.displayHeight) (hne : c.f ≠ c.distLens2Display) :
    aspectRatioEye (calcDerived c) = c.displayWidth / (2 * c.displayHeight) := by
  have hmag : c.f / (c.f - c.distLens2Display) ≠ 0 :=
    div_ne_zero hf.ne' (sub_ne_zero.mpr hne)
  have hd2i : (calcDerived c).distEye2Img ≠ 0 := (distEye2Img_pos c her).ne'
  have hd2d : c.eyeRelief + c.distLens2Display ≠ 0 := by positivity
  simp only [calcDerived] at hd2i
  simp only [aspectRatioEye, calcDerived]
  exact aspect_cancel _ _ _ _ _ _ hmag hd2d hd2i hdh.ne'

/-- C10: for every configuration with all fields strictly positive and
`f ≠ distLens2Display`, the derived `aspectRatioEye` equals
`displayWidth / (2 · displayHeight)` exactly; in particular it does not
depend on `f`, `ipd`, `eyeRelief`, `distLens2Display` or `farFromNear`. -/
theorem c10_aspectRatioEye_closed_form (c : OpticalConfig)
    (hf : 0 < c.f) (hipd : 0 < c.ipd) (her : 0 < c.eyeRelief)
    (hdl : 0 < c.distLens2Display) (hdw : 0 < c.displayWidth)
    (hdh : 0 < c.displayHeight) (hfn : 0 < c.farFromNear)
    (hne : c.f ≠ c.distLens2Display) :
    aspectRatioEye (calcDerived c) = c.displayWidth / (2 * c.displayHeight) :=
  aspectRatioEye_closed_form c hf her hdl hdh hne

/-- Witness for C10 at the default configuration:
`aspectRatioEye = 0.12096 / 0.136 = 378/425`. -/
theorem c10_aspectRatioEye_closed_form_witness :
    aspectRatioEye (calcDerived defaultConfig)
      = defaultConfig.displayWidth / (2 * defaultConfig.displayHeight) :=
  c10_aspectRatioEye_closed_form defaultConfig (by norm_num [defaultConfig])
    (by norm_num [defaultConfig]) (by norm_num [defaultConfig])
    (by norm_num [defaultConfig]) (by norm_num [defaultConfig])
    (by norm_num [defaultConfig]) (by norm_num [defaultConfig])
    (by norm_num [defaultConfig])

/-- C3: the solver computes the off-axis near-plane extents exactly by the
claimed formulas: `top = near·imgHeight/(2·distEye2Img)`, `bottom = -top`,
`imgWidthNasal = magnification·ipd/2`,
`imgWidthTemporal = magnification·(displayWidth - ipd)/2`,
`rightForLeftEye = distEye2Display·imgWidthNasal/distEye2Img`,
`leftForLeftEye = -distEye2Display·imgWidthTemporal/distEye2Img`, and the
right eye with the nasal/temporal assignments swapped. -/
theorem c3_offaxis_extents_formulas (c : OpticalConfig)
    (hne : c.f ≠ c.distLens2Display) :
    (calcDerived c).top
        = (calcDerived c).near * (calcDerived c).imgHeight / (2 * (calcDerived c).distEye2Img)
      ∧ (calcDerived c).bottom = -(calcDerived c).top
      ∧ (calcDerived c).imgWidthNasal = (calcDerived c).magnification * c.ipd / 2
      ∧ (calcDerived c).imgWidthTemporal
        = (calcDerived c).magnification * (c.displayWidth - c.ipd) / 2
      ∧ (calcDerived c).rightForLeftEye
        = (calcDerived c).distEye2Display * (calcDerived c).imgWidthNasal
            / (calcDerived c).distEye2Img
      ∧ (calcDerived c).leftForLeftEye
        = -(calcDerived c).distEye2Display * (calcDerived c).imgWidthTemporal
            / (calcDerived c).distEye2Img
      ∧ (calcDerived c).rightForRightEye
        = (calcDerived c).distEye2Display * (calcDerived c).imgWidthTemporal
            / (calcDerived c).distEye2Img
      ∧ (calcDerived c).leftForRightEye
        = -(calcDerived c).distEye2Display * (calcDerived c).imgWidthNasal
            / (calcDerived c).distEye2Img := by
  simp [calcDerived]

/-- Witness for C3 at the default configuration (`f = 0.043 ≠ 0.042`). -/
theorem c3_offaxis_extents_formulas_witness :
    defaultConfig.f ≠ defaultConfig.distLens2Display
      ∧ (calcDerived defaultConfig).rightForLeftEye
        = (calcDerived defaultConfig).distEye2Display
            * (calcDerived defaultConfig).imgWidthNasal
            / (calcDerived defaultConfig).distEye2Img :=
  ⟨by norm_num [defaultConfig],
   (c3_offaxis_extents_formulas defaultConfig (by norm_num [defaultConfig])).2.2.2.2.1⟩

/-- C4: for the Cardboard-like default configuration the solver produces
`magnification = 43 > 0`, `near = eyeRelief + distLens2Display = 0.06` and
`far = near + farFromNear = 1.56`, in exact rational arithmetic. -/
theorem c4_cardboard_scenario :
    0 < (calcDerived defaultConfig).magnification
      ∧ (calcDerived defaultConfig).near = 0.06
      ∧ (calcDerived defaultConfig).far = 1.56 := by
  refine ⟨?_, ?_, ?_⟩ <;> norm_num [calcDerived, defaultConfig]

/-- C7: with the HMD orientation equal to the identity, the derived eye
positions satisfy `eyePosR.x - eyePosL.x = ipd` and
`eyePosL.y = eyePosR.y = hmdPos.y`, for every HMD position and every
configuration. -/
theorem c7_pose_composition_identity (pos : Vec3) (c : OpticalConfig) :
    (updateEyePosPair pos identityMat4 c.ipd (calcDerived c).distEye2Display).2.x
        - (updateEyePosPair pos identityMat4 c.ipd (calcDerived c).distEye2Display).1.x
        = c.ipd
      ∧ (updateEyePosPair pos identityMat4 c.ipd (calcDerived c).distEye2Display).1.y
        = pos.y
      ∧ (updateEyePosPair pos identityMat4 c.ipd (calcDerived c).distEye2Display).2.y
        = pos.y := by
  refine ⟨?_, ?_, ?_⟩ <;>
    simp [updateEyePosPair, transformNormal, identityMat4, fromValues, vadd, vneg, vscale]

/-- C9: the per-eye projection matrices are frozen across pose updates:
`updatePosition` and `updateOrientation` leave `projMatL` and `projMatR`
unchanged (only `setParam`'s call to `calcProjectionMatrix` rewrites them). -/
theorem c9_pose_updates_preserve_projection (s : HMDState) (newPos newRot : Vec3) :
    (updatePosition s newPos).projMatL = s.projMatL
      ∧ (updatePosition s newPos).projMatR = s.projMatR
      ∧ (updateOrientation s newRot).projMatL = s.projMatL
      ∧ (updateOrientation s newRot).projMatR = s.projMatR :=
  ⟨rfl, rfl, rfl, rfl⟩

/-- C8: fixing the HMD pose (position and orientation, the orientation given
by a world matrix whose right axis is a unit vector, as for every rotation)
and all optical parameters except `ipd`, the Euclidean separation
`|eyePosR - eyePosL|` after the eye-position update is strictly increasing in
`ipd`: for `0 < ipd1 < ipd2` the separation under `ipd2` is strictly
larger. -/
theorem c8_ipd_separation_monotone (pos : Vec3) (world : Mat4) (dE2D ipd1 ipd2 : ℚ)
    (hunit : world.m11 ^ 2 + world.m12 ^ 2 + world.m13 ^ 2 = 1)
    (h1 : 0 < ipd1) (h12 : ipd1 < ipd2) :
    Real.sqrt ((eyeSepSq pos world ipd1 dE2D : ℚ) : ℝ)
      < Real.sqrt ((eyeSepSq pos world ipd2 dE2D : ℚ) : ℝ) := by
  have hsep : ∀ ipd : ℚ, eyeSepSq pos world ipd dE2D
      = ipd ^ 2 * (world.m11 ^ 2 + world.m12 ^ 2 + world.m13 ^ 2) := by
    intro ipd
    simp only [eyeSepSq, updateEyePosPair, transformNormal, vadd, vneg, vscale]
    ring
  have e1 : eyeSepSq pos world ipd1 dE2D = ipd1 ^ 2 := by rw [hsep, hunit, mul_one]
  have e2 : eyeSepSq pos world ipd2 dE2D = ipd2 ^ 2 := by rw [hsep, hunit, mul_one]
  rw [e1, e2]
  apply Real.sqrt_lt_sqrt (by positivity)
  have h2 : (0 : ℝ) < (ipd1 : ℝ) := by exact_mod_cast h1
  have h3 : (ipd1 : ℝ) < (ipd2 : ℝ) := by exact_mod_cast h12
  push_cast
  nlinarith

/-- Witness for C8: identity orientation, `ipd` increased from `0.01` to
`0.02`. -/
theorem c8_ipd_separation_monotone_witness :
    identityMat4.m11 ^ 2 + identityMat4.m12 ^ 2 + identityMat4.m13 ^ 2 = 1
      ∧ (0 : ℚ) < 1 / 100 ∧ (1 / 100 : ℚ) < 2 / 100
      ∧ Real.sqrt ((eyeSepSq ⟨0, 0, 0⟩ identityMat4 (1 / 100) (3 / 50) : ℚ) : ℝ)
        < Real.sqrt ((eyeSepSq ⟨0, 0, 0⟩ identityMat4 (2 / 100) (3 / 50) : ℚ) : ℝ) :=
  ⟨by norm_num [identityMat4, fromValues], by norm_num, by norm_num,
   c8_ipd_separation_monotone ⟨0, 0, 0⟩ identityMat4 (3 / 50) (1 / 100) (2 / 100)
     (by norm_num [identityMat4, fromValues]) (by norm_num) (by norm_num)⟩

/-- C1 counterexample: on the default state, `setParam("f", 0.042)` with
`0.042 = distLens2Display` does not leave the derived optics unchanged — the
unvalidated recalculation overwrites `magnification` (through the division by
`f - distLens2Display = 0`: `Infinity` in the JS source, the total-division
value here; either way no longer the previous `43`).  No exception exists in
the source: `setParam` is a total state transformer. -/
theorem c1_setParam_degenerate_counterexample :
    (setParam defaultState ParamKey.f defaultState.params.distLens2Display).derived.magnification
      ≠ defaultState.derived.magnification := by
  norm_num [setParam, assignParam, calcDerived, defaultState, mkHMDState, defaultConfig]

/-- C1 (amended): `setParam("f", distLens2Display)` never raises — the code
has no `InvalidOpticalConfig` and no validation — and it does not preserve
the derived optics: starting from any calibrated state with `f ≠ 0` and
`f ≠ distLens2Display`, the recomputed `magnification` differs from the
previous value (it becomes the division-by-zero result, `Infinity` in JS). -/
theorem c1_setParam_degenerate_no_rejection (s : HMDState)
    (hf : s.params.f ≠ 0) (hne : s.params.f ≠ s.params.distLens2Display)
    (hcal : s.derived = calcDerived s.params) :
    (setParam s ParamKey.f s.params.distLens2Display).derived.magnification
      ≠ s.derived.magnification := by
  have hnew : (setParam s ParamKey.f s.params.distLens2Display).derived.magnification = 0 := by
    simp [setParam, assignParam, calcDerived]
  rw [hnew, hcal]
  simp only [calcDerived]
  exact (div_ne_zero hf (sub_ne_zero.mpr hne)).symm

/-- Witness for C1 at the default state. -/
theorem c1_setParam_degenerate_no_rejection_witness :
    defaultState.params.f ≠ 0
      ∧ defaultState.params.f ≠ defaultState.params.distLens2Display
      ∧ defaultState.derived = calcDerived defaultState.params
      ∧ (setParam defaultState ParamKey.f
          defaultState.params.distLens2Display).derived.magnification
        ≠ defaultState.derived.magnification :=
  ⟨by norm_num [defaultState, mkHMDState, defaultConfig],
   by norm_num [defaultState, mkHMDState, defaultConfig], rfl,
   c1_setParam_degenerate_no_rejection defaultState
     (by norm_num [defaultState, mkHMDState, defaultConfig])
     (by norm_num [defaultState, mkHMDState, defaultConfig]) rfl⟩

/-- A singular (non-invertible) projection matrix: its third row is zero, so
its determinant vanishes, yet every transformed point stays finite. -/
def singularProj : Mat4 := fromValues 1 0 0 0 0 1 0 0 0 0 0 0 0 0 0 1

/-- C6 counterexample: `calculateFrustumCorners` does not fail on a singular
projection matrix — it silently returns eight garbage world-space points.
With `singularProj` (determinant `0`) Babylon's `Invert` hands back the
matrix itself and the reconstruction "succeeds", returning the flattened
points below instead of raising any error (the source has no error path at
all). -/
theorem c6_singular_counterexample :
    determinant4 singularProj = 0
      ∧ calculateFrustumCorners singularProj identityMat4
        = [⟨-1, 1, 0⟩, ⟨1, 1, 0⟩, ⟨-1, -1, 0⟩, ⟨1, -1, 0⟩,
           ⟨-1, 1, 0⟩, ⟨1, 1, 0⟩, ⟨-1, -1, 0⟩, ⟨1, -1, 0⟩] := by
  constructor
  · norm_num [determinant4, det3, singularProj, fromValues]
  · norm_num [calculateFrustumCorners, clipCorners, babylonInvert, determinant4, det3,
      transformCoordinates, singularProj, identityMat4, fromValues]

/-- C6 (amended): the frustum-corner reconstruction performs no singularity
check and never raises: it is a total function, and on any singular
projection matrix Babylon's `Invert` silently substitutes the un-inverted
matrix itself, so the eight returned "world" points are the clip corners
pushed through the singular matrix directly. -/
theorem c6_singular_silent_fallback (projMat viewMat : Mat4)
    (h : determinant4 projMat = 0) :
    calculateFrustumCorners projMat viewMat
      = clipCorners.map fun c =>
          transformCoordinates (transformCoordinates c projMat) (babylonInvert viewMat) := by
  have hp : babylonInvert projMat = projMat := by
    simp [babylonInvert, h]
  simp only [calculateFrustumCorners, hp]

/-- Witness for C6 at the singular example matrix. -/
theorem c6_singular_silent_fallback_witness :
    determinant4 singularProj = 0
      ∧ calculateFrustumCorners singularProj identityMat4
        = clipCorners.map fun c =>
            transformCoordinates (transformCoordinates c singularProj)
              (babylonInvert identityMat4) :=
  ⟨by norm_num [determinant4, det3, singularProj, fromValues],
   c6_singular_silent_fallback singularProj identityMat4
     (by norm_num [determinant4, det3, singularProj, fromValues])⟩

/-- C2 counterexample: in the current `App.updateHMDEyeCameraViewports`
(Simulation/PIP branch), at canvas `1920×1080` with the default
configuration, the left-eye viewport pixel rectangle has
`widthPixels / heightPixels = 1 / aspectRatioEye ≈ 1.124`, not
`aspectRatioEye = 378/425 ≈ 0.889`: the discrepancy exceeds `1/1000`, far
beyond any floating-point tolerance. -/
theorem c2_pip_aspect_counterexample :
    (updateHMDEyeCameraViewports DisplayMode.Simulation 1920 1080 defaultConfig.displayWidth
          (aspectRatioEye (calcDerived defaultConfig))).width * 1920
        / ((updateHMDEyeCameraViewports DisplayMode.Simulation 1920 1080
              defaultConfig.displayWidth
              (aspectRatioEye (calcDerived defaultConfig))).height * 1080)
      ≠ aspectRatioEye (calcDerived defaultConfig)
    ∧ ¬(|(updateHMDEyeCameraViewports DisplayMode.Simulation 1920 1080
              defaultConfig.displayWidth
              (aspectRatioEye (calcDerived defaultConfig))).width * 1920
          / ((updateHMDEyeCameraViewports DisplayMode.Simulation 1920 1080
                defaultConfig.displayWidth
                (aspectRatioEye (calcDerived defaultConfig))).height * 1080)
          - aspectRatioEye (calcDerived defaultConfig)|
        ≤ 1 / 1000) := by
  have habs : |(903 : ℚ) / 500| = 903 / 500 := abs_of_pos (by norm_num)
  constructor
  · norm_num [updateHMDEyeCameraViewports, aspectRatioEye, calcDerived, defaultConfig, habs]
  · norm_num [updateHMDEyeCameraViewports, aspectRatioEye, calcDerived, defaultConfig, habs,
      abs_le]

/-- C2 (amended): in the current `app.ts` the Simulation/PIP layout enforces
the transposed relation `heightPixels = widthPixels · aspectRatioEye`
exactly, through every clamping branch (so the claimed
`widthPixels / heightPixels = aspectRatioEye` holds only when
`aspectRatioEye = 1`); the claimed relation does hold, exactly, for the
earlier evolution of the layout in `src/app.ts`, whose Simulation branch
computes `heightPixels = widthPixels / aspectRatioEye`. -/
theorem c2_pip_aspect_amended (c : OpticalConfig) (W H : ℚ)
    (hf : 0 < c.f) (her : 0 < c.eyeRelief) (hdl : 0 < c.distLens2Display)
    (hdw : 0 < c.displayWidth) (hdh : 0 < c.displayHeight)
    (hne : c.f ≠ c.distLens2Display) (hW : 0 < W) (hH : 0 < H) :
    (updateHMDEyeCameraViewports DisplayMode.Simulation W H c.displayWidth
        (aspectRatioEye (calcDerived c))).height * H
      = (updateHMDEyeCameraViewports DisplayMode.Simulation W H c.displayWidth
          (aspectRatioEye (calcDerived c))).width * W
        * aspectRatioEye (calcDerived c)
    ∧ (updateHMDEyeCameraViewportsOld DisplayMode.Simulation W H
          (aspectRatioEye (calcDerived c))).width * W
        / ((updateHMDEyeCameraViewportsOld DisplayMode.Simulation W H
            (aspectRatioEye (calcDerived c))).height * H)
      = aspectRatioEye (calcDerived c) := by
  have hA : 0 < aspectRatioEye (calcDerived c) := by
    rw [aspectRatioEye_closed_form c hf her hdl hdh hne]
    positivity
  set A := aspectRatioEye (calcDerived c) with hAdef
  constructor
  · simp only [updateHMDEyeCameraViewports]
    split_ifs with h1 h2 h3 <;> field_simp <;> ring
  · simp only [updateHMDEyeCameraViewportsOld]
    field_simp
    ring

/-- Witness for C2 at the default configuration and a `1920×1080` canvas. -/
theorem c2_pip_aspect_amended_witness :
    (updateHMDEyeCameraViewports DisplayMode.Simulation 1920 1080 defaultConfig.displayWidth
        (aspectRatioEye (calcDerived defaultConfig))).height * 1080
      = (updateHMDEyeCameraViewports DisplayMode.Simulation 1920 1080
          defaultConfig.displayWidth
          (aspectRatioEye (calcDerived defaultConfig))).width * 1920
        * aspectRatioEye (calcDerived defaultConfig)
    ∧ (updateHMDEyeCameraViewportsOld DisplayMode.Simulation 1920 1080
          (aspectRatioEye (calcDerived defaultConfig))).width * 1920
        / ((updateHMDEyeCameraViewportsOld DisplayMode.Simulation 1920 1080
            (aspectRatioEye (calcDerived defaultConfig))).height * 1080)
      = aspectRatioEye (calcDerived defaultConfig) :=
  c2_pip_aspect_amended defaultConfig 1920 1080
    (by norm_num [defaultConfig]) (by norm_num [defaultConfig])
    (by norm_num [defaultConfig]) (by norm_num [defaultConfig])
    (by norm_num [defaultConfig]) (by norm_num [defaultConfig])
    (by norm_num) (by norm_num)

/-- Closed-form inverse of the solver's projection-matrix shape
`FromValues(x,0,0,0, 0,y,0,0, a,bb,cc,1, 0,0,d,0)` (determinant `-x·y·d`). -/
lemma invert_proj_shape (x y a bb cc d : ℚ) (hx : x ≠ 0) (hy : y ≠ 0) (hd : d ≠ 0) :
    babylonInvert (fromValues x 0 0 0 0 y 0 0 a bb cc 1 0 0 d 0)
      = fromValues x⁻¹ 0 0 0 0 y⁻¹ 0 0 0 0 0 d⁻¹ (-(a / x)) (-(bb / y)) 1 (-(cc / d)) := by
  have hdet : determinant4 (fromValues x 0 0 0 0 y 0 0 a bb cc 1 0 0 d 0) = -(x * y * d) := by
    simp [determinant4, det3, fromValues]
    ring
  simp only [babylonInvert, hdet]
  rw [if_neg (by simpa using mul_ne_zero (mul_ne_zero hx hy) hd)]
  simp only [fromValues, det3, Mat4.mk.injEq]
  refine ⟨?_, ?_, ?_, ?_, ?_, ?_, ?_, ?_, ?_, ?_, ?_, ?_, ?_, ?_, ?_, ?_⟩ <;>
    field_simp <;> ring

/-- The inverse of the identity-orientation view matrix is the translation by
`+eyePos`. -/
lemma invert_view_identity (eye : Vec3) :
    babylonInvert (viewMatrixIdentityOrient eye)
      = fromValues 1 0 0 0 0 1 0 0 0 0 1 0 eye.x eye.y eye.z 1 := by
  have hdet : determinant4 (viewMatrixIdentityOrient eye) = 1 := by
    simp [determinant4, det3, viewMatrixIdentityOrient, fromValues]
  simp only [babylonInvert, hdet]
  rw [if_neg one_ne_zero]
  simp only [viewMatrixIdentityOrient, fromValues, det3, Mat4.mk.injEq]
  refine ⟨?_, ?_, ?_, ?_, ?_, ?_, ?_, ?_, ?_, ?_, ?_, ?_, ?_, ?_, ?_, ?_⟩ <;> ring

/-- Unprojecting a clip point `(p, q, s)` through the inverted projection
shape: the result is `((p-a)·d/((s-cc)·x), (q-bb)·d/((s-cc)·y), d/(s-cc))`
(an unconditional identity of rational total division). -/
lemma tc_inv_proj (x y a bb cc d p q s : ℚ) :
    transformCoordinates ⟨p, q, s⟩
        (fromValues x⁻¹ 0 0 0 0 y⁻¹ 0 0 0 0 0 d⁻¹ (-(a / x)) (-(bb / y)) 1 (-(cc / d)))
      = ⟨(p - a) * d / ((s - cc) * x), (q - bb) * d / ((s - cc) * y), d / (s - cc)⟩ := by
  simp only [transformCoordinates, fromValues, Vec3.mk.injEq]
  refine ⟨?_, ?_, ?_⟩
  · have e1 : p * x⁻¹ + q * 0 + s * 0 + -(a / x) = (p - a) / x := by ring
    have e2 : p * 0 + q * 0 + s * d⁻¹ + -(cc / d) = (s - cc) / d := by ring
    rw [e1, e2, one_div_div, div_mul_div_comm, mul_comm x (s - cc)]
  · have e1 : p * 0 + q * y⁻¹ + s * 0 + -(bb / y) = (q - bb) / y := by ring
    have e2 : p * 0 + q * 0 + s * d⁻¹ + -(cc / d) = (s - cc) / d := by ring
    rw [e1, e2, one_div_div, div_mul_div_comm, mul_comm y (s - cc)]
  · have e1 : p * 0 + q * 0 + s * 0 + 1 = (1 : ℚ) := by ring
    have e2 : p * 0 + q * 0 + s * d⁻¹ + -(cc / d) = (s - cc) / d := by ring
    rw [e1, e2, one_div_div, one_mul]

/-- Transforming through the inverted identity-orientation view matrix adds
the eye position back. -/
lemma tc_inv_view (v eye : Vec3) :
    transformCoordinates v (fromValues 1 0 0 0 0 1 0 0 0 0 1 0 eye.x eye.y eye.z 1)
      = vadd v eye := by
  simp [transformCoordinates, fromValues, vadd]

/-- Round trip at the frustum-bounds level: unprojecting the near clip
corners through `Invert(projMatOfBounds l r t b n far)` and the inverse of
the identity-orientation view matrix, then measuring the near rectangle
relative to the eye, yields `(-r, -l, -b, -t)` — the horizontal extents come
back mirrored because the matrix keeps THREE.js's `a = (r+l)/(r-l)` sign,
which in Babylon's left-handed row-vector convention (positive `w = z`) maps
view `x ∈ [-r, -l]`, not `[l, r]`, onto clip `[-1, 1]`. -/
lemma roundtrip_bounds (l r t b n far : ℚ) (eye : Vec3)
    (hrl : r - l ≠ 0) (htb : t - b ≠ 0) (hn : n ≠ 0) (hfa : far ≠ 0)
    (hfn : far - n ≠ 0) :
    nearRectRelEye (projMatOfBounds l r t b n far) (viewMatrixIdentityOrient eye) eye
      = (-r, -l, -b, -t) := by
  have hx : (2 * n / (r - l) : ℚ) ≠ 0 := div_ne_zero (mul_ne_zero two_ne_zero hn) hrl
  have hy : (2 * n / (t - b) : ℚ) ≠ 0 := div_ne_zero (mul_ne_zero two_ne_zero hn) htb
  have hd : ((-2 * far * n) / (far - n) : ℚ) ≠ 0 :=
    div_ne_zero (mul_ne_zero (mul_ne_zero (by norm_num) hfa) hn) hfn
  have hcc : (-1 : ℚ) - (far + n) / (far - n) ≠ 0 := by
    have he : (-1 : ℚ) - (far + n) / (far - n) = -2 * far / (far - n) := by
      field_simp
      ring
    rw [he]
    exact div_ne_zero (mul_ne_zero (by norm_num) hfa) hfn
  simp only [nearRectRelEye, frustumCorner, calculateFrustumCorners, projMatOfBounds]
  rw [invert_proj_shape _ _ _ _ _ _ hx hy hd, invert_view_identity]
  simp only [clipCorners, List.map, tc_inv_proj, tc_inv_view, vadd,
    List.getD_cons_zero, List.getD_cons_succ, Prod.mk.injEq, add_sub_cancel_right]
  refine ⟨?_, ?_, ?_, ?_⟩
  · rw [div_eq_iff (mul_ne_zero hcc hx)]
    field_simp
    ring
  · rw [div_eq_iff (mul_ne_zero hcc hx)]
    field_simp
    ring
  · rw [div_eq_iff (mul_ne_zero hcc hy)]
    field_simp
    ring
  · rw [div_eq_iff (mul_ne_zero hcc hy)]
    field_simp
    ring

/-- C5 counterexample: at the default (valid) configuration, the round trip
through the solver's left-eye projection does not reproduce
`(leftForLeftEye, rightForLeftEye, top, bottom)`: the measured near rectangle
is `(-rightForLeftEye, -leftForLeftEye, top, bottom)` — horizontally
mirrored.  The measured left edge `-559/12160 ≈ -0.0460` differs from
`leftForLeftEye = -60157/1520000 ≈ -0.0396` by a relative error of about
`0.16`, far beyond the claimed `1e-6` relative tolerance. -/
theorem c5_roundtrip_counterexample :
    nearRectRelEye (calcProjectionMatrixL defaultConfig)
        (viewMatrixIdentityOrient ⟨0, 0, 0⟩) ⟨0, 0, 0⟩
      = (-(559 / 12160), 60157 / 1520000, 731 / 15200, -(731 / 15200))
    ∧ ¬(|(-(559 / 12160) : ℚ) - (calcDerived defaultConfig).leftForLeftEye|
        ≤ 1 / 1000000 * |(calcDerived defaultConfig).leftForLeftEye|) := by
  have habs : |(903 : ℚ) / 500| = 903 / 500 := abs_of_pos (by norm_num)
  have hl : (calcDerived defaultConfig).leftForLeftEye = -(60157 / 1520000) := by
    norm_num [calcDerived, defaultConfig, habs]
  constructor
  · have hmat : calcProjectionMatrixL defaultConfig
        = projMatOfBounds (-(60157 / 1520000)) (559 / 12160) (731 / 15200)
            (-(731 / 15200)) (3 / 50) (39 / 25) := by
      norm_num [calcProjectionMatrixL, projMatOfBounds, calcDerived, defaultConfig, habs]
    rw [hmat]
    have h := roundtrip_bounds (-(60157 / 1520000)) (559 / 12160) (731 / 15200)
      (-(731 / 15200)) (3 / 50) (39 / 25) ⟨0, 0, 0⟩
      (by norm_num) (by norm_num) (by norm_num) (by norm_num) (by norm_num)
    simpa using h
  · rw [hl, abs_of_neg (by norm_num), abs_of_neg (by norm_num)]
    norm_num

/-- C5 (amended): for every valid configuration (all fields strictly
positive, `f ≠ distLens2Display`) and every eye position, unprojecting the
clip cube corners through the inverse of the solver's left-eye projection and
the inverse of the (identity-orientation) view matrix reproduces the vertical
near-plane extents `top`/`bottom` exactly, and the horizontal extents
mirrored: the measured rectangle is
`(-rightForLeftEye, -leftForLeftEye, top, bottom)`, with zero error (so only
a configuration with `imgWidthNasal = imgWidthTemporal`, i.e.
`ipd = displayWidth/2`, would satisfy the claim as stated). -/
theorem c5_roundtrip_amended (c : OpticalConfig) (eye : Vec3)
    (hf : 0 < c.f) (hipd : 0 < c.ipd) (her : 0 < c.eyeRelief)
    (hdl : 0 < c.distLens2Display) (hdw : 0 < c.displayWidth)
    (hdh : 0 < c.displayHeight) (hfn : 0 < c.farFromNear)
    (hne : c.f ≠ c.distLens2Display) :
    nearRectRelEye (calcProjectionMatrixL c) (viewMatrixIdentityOrient eye) eye
      = (-(calcDerived c).rightForLeftEye, -(calcDerived c).leftForLeftEye,
         (calcDerived c).top, (calcDerived c).bottom) := by
  have hmagd : c.f / (c.f - c.distLens2Display) ≠ 0 :=
    div_ne_zero hf.ne' (sub_ne_zero.mpr hne)
  have hD : (calcDerived c).distEye2Img ≠ 0 := (distEye2Img_pos c her).ne'
  simp only [calcDerived] at hD
  have hd2d : (0 : ℚ) < c.eyeRelief + c.distLens2Display := by positivity
  have hspan : (calcDerived c).rightForLeftEye - (calcDerived c).leftForLeftEye
      = (c.eyeRelief + c.distLens2Display) * (c.f / (c.f - c.distLens2Display))
          * c.displayWidth
        / (2 * (|1 / (1 / c.f - 1 / c.distLens2Display)| + c.eyeRelief)) := by
    simp only [calcDerived]
    field_simp
    ring
  have hrl : (calcDerived c).rightForLeftEye - (calcDerived c).leftForLeftEye ≠ 0 := by
    rw [hspan]
    exact div_ne_zero
      (mul_ne_zero (mul_ne_zero hd2d.ne' hmagd) hdw.ne')
      (by positivity)
  have htop : (calcDerived c).top ≠ 0 := by
    simp only [calcDerived]
    exact div_ne_zero
      (mul_ne_zero hd2d.ne' (mul_ne_zero hdh.ne' hmagd))
      (by positivity)
  have hbot : (calcDerived c).bottom = -(calcDerived c).top := rfl
  have htb : (calcDerived c).top - (calcDerived c).bottom ≠ 0 := by
    rw [hbot, sub_neg_eq_add, ← two_mul]
    exact mul_ne_zero two_ne_zero htop
  have hnear : (calcDerived c).near ≠ 0 := by
    simp only [calcDerived]
    positivity
  have hfar : (calcDerived c).far ≠ 0 := by
    simp only [calcDerived]
    positivity
  have hfarn : (calcDerived c).far - (calcDerived c).near ≠ 0 := by
    have he : (calcDerived c).far - (calcDerived c).near = c.farFromNear := by
      simp [calcDerived]
    rw [he]
    exact hfn.ne'
  have h := roundtrip_bounds (calcDerived c).leftForLeftEye (calcDerived c).rightForLeftEye
    (calcDerived c).top (calcDerived c).bottom (calcDerived c).near (calcDerived c).far eye
    hrl htb hnear hfar hfarn
  have hmat : calcProjectionMatrixL c
      = projMatOfBounds (calcDerived c).leftForLeftEye (calcDerived c).rightForLeftEye
          (calcDerived c).top (calcDerived c).bottom (calcDerived c).near
          (calcDerived c).far := rfl
  rw [hmat, h, hbot]
  simp

/-- Witness for C5 at the default configuration with the eye at the
origin. -/
theorem c5_roundtrip_amended_witness :
    nearRectRelEye (calcProjectionMatrixL defaultConfig)
        (viewMatrixIdentityOrient ⟨0, 0, 0⟩) ⟨0, 0, 0⟩
      = (-(calcDerived defaultConfig).rightForLeftEye,
         -(calcDerived defaultConfig).leftForLeftEye,
         (calcDerived defaultConfig).top, (calcDerived defaultConfig).bottom) :=
  c5_roundtrip_amended defaultConfig ⟨0, 0, 0⟩
    (by norm_num [defaultConfig]) (by norm_num [defaultConfig])
    (by norm_num [defaultConfig]) (by norm_num [defaultConfig])
    (by norm_num [defaultConfig]) (by norm_num [defaultConfig])
    (by norm_num [defaultConfig]) (by norm_num [defaultConfig])
